import Mathlib

/-!
Verification of the client-side data-access and aggregation layer of an
expense-tracker frontend.

The TypeScript source is shallowly embedded:
* JS numbers used as monetary amounts are modelled as integers (`ℤ`) — the
  claims about the aggregations concern only sums, comparisons and ordering,
  which are representation-independent; a runtime value that is not a number
  is `Option.none`.
* JS strings are Lean `String`s; JS truthiness of a string is `≠ ""`.
* JS `Map` and plain-object records are insertion-ordered association lists;
  `Map.set` / property assignment updates in place when the key exists and
  appends otherwise, exactly as in the JS semantics.
* Instants are integer milliseconds since the Unix epoch; the viewer's local
  timezone is modelled as a fixed offset `tz` in minutes east of UTC
  (daylight-saving transitions are not modelled).
* `Array.prototype.sort` with a numeric comparator is a stable sort and is
  modelled by Mathlib's stable `List.insertionSort`.
-/

set_option maxRecDepth 40000

namespace ExpenseTracker

/-! ## Data model (src/lib/api.ts) -/

/-- The `type` union of an expense: `"Need" | "Want" | "Investment" | "Income"`. -/
inductive ExpenseType where
  | Need | Want | Investment | Income
deriving DecidableEq, Repr

/-- String form of an expense type, used when it is stringified into a query. -/
def ExpenseType.str : ExpenseType → String
  | .Need => "Need"
  | .Want => "Want"
  | .Investment => "Investment"
  | .Income => "Income"

/-- The `Expense` record of src/lib/api.ts.  `amount` is `Option ℤ` so that the
runtime check `typeof amount !== "number"` is representable (`none` = not a
number). -/
structure Expense where
  id : String
  category_id : String
  payment_method_id : String
  amount : Option ℤ
  type : ExpenseType
  description : String
  timestamp : String
deriving DecidableEq, Repr

/-- The `Category` interface used by the analytics page (`{id, name}`). -/
structure Category where
  id : String
  name : String
deriving DecidableEq, Repr

/-- `typeof v === "number" && 0 < v` for a modelled JS value. -/
def isPosNum : Option ℤ → Bool
  | some a => decide (0 < a)
  | none => false

/-- Numeric value of a modelled JS value (only used after `isPosNum`). -/
def numVal : Option ℤ → ℤ
  | some a => a
  | none => 0

/-! ## JS date arithmetic

`new Date("YYYY-MM-DD")` parses a date-only ISO string as midnight UTC, or an
invalid date (NaN) when the components are not a real calendar date.
`getFullYear`/`getMonth`/`getDate` read the *local* calendar date of the
instant; `Date.UTC` maps calendar components back to an instant.  The civil
calendar arithmetic uses the standard days-from-civil / civil-from-days
algorithms over `Int`. -/

def isLeapYear (y : Int) : Bool := y % 4 = 0 && (y % 100 ≠ 0 || y % 400 = 0)

def daysInMonth (y : Int) (m : Nat) : Nat :=
  if m = 2 then (if isLeapYear y then 29 else 28)
  else if m = 4 ∨ m = 6 ∨ m = 9 ∨ m = 11 then 30
  else 31

/-- Days since 1970-01-01 of the civil date `(y, m, d)` (`1 ≤ m ≤ 12`). -/
def daysFromCivil (y : Int) (m d : Nat) : Int :=
  let y' : Int := if m ≤ 2 then y - 1 else y
  let era : Int := Int.fdiv y' 400
  let yoe : Int := y' - era * 400
  let mp : Int := if 2 < m then (m : Int) - 3 else (m : Int) + 9
  let doy : Int := (153 * mp + 2) / 5 + (d : Int) - 1
  let doe : Int := yoe * 365 + yoe / 4 - yoe / 100 + doy
  era * 146097 + doe - 719468

/-- Civil date `(y, m, d)` of a count of days since 1970-01-01. -/
def civilFromDays (z : Int) : Int × Nat × Nat :=
  let z' : Int := z + 719468
  let era : Int := Int.fdiv z' 146097
  let doe : Int := z' - era * 146097
  let yoe : Int := (doe - doe / 1460 + doe / 36524 - doe / 146096) / 365
  let y : Int := yoe + era * 400
  let doy : Int := doe - (365 * yoe + yoe / 4 - yoe / 100)
  let mp : Int := (5 * doy + 2) / 153
  let d : Int := doy - (153 * mp + 2) / 5 + 1
  let m : Int := if mp < 10 then mp + 3 else mp - 9
  (if m ≤ 2 then y + 1 else y, m.toNat, d.toNat)

def msPerDay : Int := 86400000

def digitVal (c : Char) : Nat := c.toNat - '0'.toNat

def isDigitCh (c : Char) : Bool := '0' ≤ c && c ≤ '9'

/-- The strict regex `^\d{4}-\d{2}-\d{2}$` of src/lib/api.ts. -/
def ymdMatches (s : String) : Bool :=
  match s.data with
  | [a, b, c, d, h1, e, f, h2, g, h] =>
    isDigitCh a && isDigitCh b && isDigitCh c && isDigitCh d && h1 = '-' &&
    isDigitCh e && isDigitCh f && h2 = '-' && isDigitCh g && isDigitCh h
  | _ => false

/-- `new Date(s).getTime()` for a string matching `^\d{4}-\d{2}-\d{2}$`:
midnight UTC of that calendar date, or `none` (NaN) when the components do not
form a real calendar date. -/
def jsParseYmd (s : String) : Option Int :=
  match s.data with
  | [a, b, c, d, _, e, f, _, g, h] =>
    let y : Int := (digitVal a * 1000 + digitVal b * 100 + digitVal c * 10 + digitVal d : Nat)
    let m : Nat := digitVal e * 10 + digitVal f
    let dd : Nat := digitVal g * 10 + digitVal h
    if 1 ≤ m ∧ m ≤ 12 ∧ 1 ≤ dd ∧ dd ≤ daysInMonth y m then
      some (daysFromCivil y m dd * msPerDay)
    else none
  | _ => none

/-- `Date.UTC(date.getFullYear(), date.getMonth(), date.getDate())` where
`date` is the instant `t` viewed in a local timezone `tz` minutes east of UTC:
the UTC midnight of the *local* calendar day containing `t`. -/
def jsLocalDayStartUTC (tz : Int) (t : Int) : Int :=
  let localDay : Int := Int.fdiv (t + tz * 60000) msPerDay
  let c := civilFromDays localDay
  daysFromCivil c.1 c.2.1 c.2.2 * msPerDay

/-- `Date.UTC(getFullYear(), getMonth(), getDate(), 23, 59, 59, 999)` of the
instant `t` viewed in local timezone `tz`. -/
def jsLocalDayEndUTC (tz : Int) (t : Int) : Int :=
  let localDay : Int := Int.fdiv (t + tz * 60000) msPerDay
  let c := civilFromDays localDay
  daysFromCivil c.1 c.2.1 c.2.2 * msPerDay + 86399999

def padNum (width n : Nat) : String :=
  let s := toString n
  String.mk (List.replicate (width - s.length) '0') ++ s

/-- `Date.prototype.toISOString` on an instant (for years 0–9999). -/
def toIsoString (t : Int) : String :=
  let day : Int := Int.fdiv t msPerDay
  let ms : Nat := (t - day * msPerDay).toNat
  let c := civilFromDays day
  padNum 4 c.1.toNat ++ "-" ++ padNum 2 c.2.1 ++ "-" ++ padNum 2 c.2.2 ++ "T" ++
    padNum 2 (ms / 3600000) ++ ":" ++ padNum 2 (ms / 60000 % 60) ++ ":" ++
    padNum 2 (ms / 1000 % 60) ++ "." ++ padNum 3 (ms % 1000) ++ "Z"

/-! ## Query-string construction (getExpenses, getAverageCategorySpend) -/

/-- The date-conversion step of `getExpenses` for a `startDate`/`endDate`
filter value: a string matching `YYYY-MM-DD` that parses to a valid instant is
replaced by the ISO form of `Date.UTC(getFullYear(), getMonth(), getDate())`;
any other value is transmitted as `String(value)`, unchanged. -/
def dateParamValue (tz : Int) (s : String) : String :=
  if ymdMatches s then
    match jsParseYmd s with
    | some t => toIsoString (jsLocalDayStartUTC tz t)
    | none => s
  else s

/-- The `ExpenseFilters` object of src/lib/api.ts (fields in declaration
order, which is the `Object.entries` iteration order of the literal). -/
structure ExpenseFilters where
  startDate : Option String := none
  endDate : Option String := none
  categoryId : Option String := none
  paymentMethodId : Option String := none
  type : Option ExpenseType := none
  skip : Option Nat := none
  limit : Option Nat := none
deriving Repr

/-- The query parameters appended by `getExpenses`: every defined filter field
in iteration order, date fields passed through the conversion step. -/
def getExpensesQueryParams (tz : Int) (f : ExpenseFilters) : List (String × String) :=
  (match f.startDate with | some s => [("startDate", dateParamValue tz s)] | none => []) ++
  (match f.endDate with | some s => [("endDate", dateParamValue tz s)] | none => []) ++
  (match f.categoryId with | some s => [("categoryId", s)] | none => []) ++
  (match f.paymentMethodId with | some s => [("paymentMethodId", s)] | none => []) ++
  (match f.type with | some ty => [("type", ty.str)] | none => []) ++
  (match f.skip with | some n => [("skip", toString n)] | none => []) ++
  (match f.limit with | some n => [("limit", toString n)] | none => [])

/-- The normalized `startDate` sent by `getAverageCategorySpend`. -/
def avgSpendStartParam (tz : Int) (s : String) : String :=
  if ymdMatches s then
    match jsParseYmd s with
    | some t => toIsoString (jsLocalDayStartUTC tz t)
    | none => s
  else s

/-- The normalized `endDate` sent by `getAverageCategorySpend` (end of the
local calendar day, in UTC). -/
def avgSpendEndParam (tz : Int) (s : String) : String :=
  if ymdMatches s then
    match jsParseYmd s with
    | some t => toIsoString (jsLocalDayEndUTC tz t)
    | none => s
  else s

/-! ## HTTP client wrapper (fetchWithCreds)

JS string primitives are modelled on the underlying character lists so that
every definition evaluates by kernel reduction. -/

/-- `String.prototype.startsWith`. -/
def strStartsWith (s p : String) : Bool := p.data.isPrefixOf s.data

/-- `String.prototype.toUpperCase` (ASCII inputs only are used). -/
def strToUpper (s : String) : String := String.mk (s.data.map Char.toUpper)

/-- Substring scan over character lists. -/
def hasSubstrList (pat : List Char) : List Char → Bool
  | [] => pat.isPrefixOf []
  | c :: cs => pat.isPrefixOf (c :: cs) || hasSubstrList pat cs

/-- JS object property assignment on a string-keyed record: update in place
when the key exists, append otherwise. -/
def objSet (m : List (String × String)) (k v : String) : List (String × String) :=
  if m.any (fun p => p.1 = k) then
    m.map (fun p => if p.1 = k then (k, v) else p)
  else m ++ [(k, v)]

/-- Lookup in a record (the value of the first entry with the key). -/
def objGet (m : List (String × String)) (k : String) : Option String :=
  (m.find? (fun p => p.1 = k)).map (fun p => p.2)

/-- `normalizeHeaders` on the array-of-pairs `HeadersInit` shape: copy every
pair into a fresh record in order. -/
def normalizeHeaders (hs : List (String × String)) : List (String × String) :=
  hs.foldl (fun m kv => objSet m kv.1 kv.2) []

/-- JS truthiness of the `csrfToken : string | null | undefined` argument. -/
def csrfTruthy : Option String → Bool
  | some s => s ≠ ""
  | none => false

/-- The headers record that `fetchWithCreds` passes to `fetch`:
`Content-Type` is assigned unconditionally, then `X-CSRF-Token` is assigned
exactly when the path is an `/api/` non-auth path, the method is a mutation,
and a truthy token was supplied. -/
def fetchWithCredsHeaders (url : String) (optMethod : Option String)
    (optHeaders : List (String × String)) (csrfToken : Option String) :
    List (String × String) :=
  let isApi := strStartsWith url "/api/" && !(strStartsWith url "/api/auth/")
  let method := strToUpper (optMethod.getD "GET")
  let isMutation := ["POST", "PUT", "PATCH", "DELETE"].contains method
  let headers := objSet (normalizeHeaders optHeaders) "Content-Type" "application/json"
  if isApi && isMutation && csrfTruthy csrfToken then
    objSet headers "X-CSRF-Token" (csrfToken.getD "")
  else headers

/-! ## Delete calls and their error surfacing -/

/-- `Response.ok`: status in the range 200–299. -/
def respOk (status : Nat) : Bool := 200 ≤ status && status ≤ 299

/-- `fetchWithCreds` throws on a 401 response and otherwise returns the
response; modelled on the status code alone. -/
def fetchWithCredsStatus (status : Nat) : Except String Nat :=
  if status = 401 then Except.error "Unauthorized. Please log in again."
  else Except.ok status

/-- `deleteCategory`: throws `"Failed to delete category"` on any non-ok
status, returns `true` on success. -/
def deleteCategory (status : Nat) : Except String Bool :=
  match fetchWithCredsStatus status with
  | Except.error e => Except.error e
  | Except.ok s => if respOk s then Except.ok true else Except.error "Failed to delete category"

/-- `deletePaymentMethod`, same shape as `deleteCategory`. -/
def deletePaymentMethod (status : Nat) : Except String Bool :=
  match fetchWithCredsStatus status with
  | Except.error e => Except.error e
  | Except.ok s => if respOk s then Except.ok true else Except.error "Failed to delete payment method"

/-- `deleteExpense`, same shape as `deleteCategory`. -/
def deleteExpense (status : Nat) : Except String Bool :=
  match fetchWithCredsStatus status with
  | Except.error e => Except.error e
  | Except.ok s => if respOk s then Except.ok true else Except.error "Failed to delete expense"

/-- What the user sees after a delete attempt. -/
inductive DeleteSurface where
  | success
  | conflict
  | generic
deriving DecidableEq, Repr

/-- `error.message.includes("409")`. -/
def includes409 (msg : String) : Bool := hasSubstrList "409".data msg.data

/-- `handleDelete` of categories-list.tsx: surfaces the conflict message when
the caught error's message contains `"409"`, the generic message otherwise. -/
def handleDeleteCategory (status : Nat) : DeleteSurface :=
  match deleteCategory status with
  | Except.ok _ => DeleteSurface.success
  | Except.error msg => if includes409 msg then DeleteSurface.conflict else DeleteSurface.generic

/-- `handleDelete` of payment-methods-list.tsx. -/
def handleDeletePaymentMethod (status : Nat) : DeleteSurface :=
  match deletePaymentMethod status with
  | Except.ok _ => DeleteSurface.success
  | Except.error msg => if includes409 msg then DeleteSurface.conflict else DeleteSurface.generic

/-- `handleDelete` of expenses-list.tsx: every failure surfaces the generic
"Failed to delete transaction" message (there is no conflict branch). -/
def handleDeleteExpense (status : Nat) : DeleteSurface :=
  match deleteExpense status with
  | Except.ok _ => DeleteSurface.success
  | Except.error _ => DeleteSurface.generic

/-! ## Paginated full-range fetcher (analytics-page.tsx, fetchAllExpensesForRange)

The server is modelled as the list of responses it gives to the successive
page requests: response `i` answers the call with `skip = i * limit`.  A
response is either a well-formed page of items, a malformed body (neither an
array nor an `{items}` object), or a thrown request error (network failure,
non-ok status, 401).  The model returns `none` when the response list is
exhausted while the loop still wants another page. -/

inductive PageResponse where
  | ok (items : List Expense)
  | badFormat
  | thrown
deriving DecidableEq, Repr

/-- The user-visible notifications raised by the fetch loop, in order. -/
inductive Toast where
  | errorBadFormat
  | warnIncomplete
  | errorFetchThrown
  | successCount (n : Nat)
  | infoNoExpenses
deriving DecidableEq, Repr

/-- Final state of one run of the fetch loop: the expenses displayed, the
`skip` value of each issued call (in order), the toasts raised (in order). -/
structure FetchResult where
  expenses : List Expense
  skips : List Nat
  toasts : List Toast
deriving DecidableEq, Repr

/-- `DATA_FETCH_LIMIT` of analytics-page.tsx. -/
def DATA_FETCH_LIMIT : Nat := 500

/-- The toasts raised after the `while` loop exits normally: a success toast
when anything was fetched, the no-expenses info toast when the run never
advanced past the first page and fetched nothing. -/
def finishToasts (fetched : List Expense) (currentSkip : Nat) : List Toast :=
  if 0 < fetched.length then [Toast.successCount fetched.length]
  else if currentSkip = 0 then [Toast.infoNoExpenses]
  else []

/-- The `while (hasMore)` loop of `fetchAllExpensesForRange`.  A thrown error
jumps to the `catch` block, which clears all accumulated expenses; a malformed
body stops the loop, clearing accumulated data on the first page (error toast)
and keeping it on later pages (incomplete-data warning); a short well-formed
page stops the loop normally. -/
def fetchLoop (limit : Nat) :
    List PageResponse → Nat → List Expense → List Nat → Option FetchResult
  | [], _, _, _ => none
  | PageResponse.thrown :: _, skip, _, skips =>
      some ⟨[], skips ++ [skip], [Toast.errorFetchThrown]⟩
  | PageResponse.badFormat :: _, skip, acc, skips =>
      some ⟨acc, skips ++ [skip],
        (if skip = 0 then [Toast.errorBadFormat] else [Toast.warnIncomplete]) ++
          finishToasts acc skip⟩
  | PageResponse.ok items :: rest, skip, acc, skips =>
      if items.length < limit then
        some ⟨acc ++ items, skips ++ [skip], finishToasts (acc ++ items) skip⟩
      else
        fetchLoop limit rest (skip + limit) (acc ++ items) (skips ++ [skip])

/-- `fetchAllExpensesForRange`, starting at `skip = 0` with no data. -/
def fetchAllExpensesForRange (pages : List PageResponse) : Option FetchResult :=
  fetchLoop DATA_FETCH_LIMIT pages 0 [] []

/-! ## Category spend aggregation (analytics-page.tsx, categorySpendingData) -/

/-- An entry of the spending map: category name and accumulated total. -/
abbrev SpendEntry := String × ℤ

/-- The spending map: a JS `Map` from category id to `{name, value}`,
insertion-ordered. -/
abbrev SpendMap := List (String × SpendEntry)

/-- `Map.set` for the spending map: update in place when the key exists,
append otherwise. -/
def mapSet (m : SpendMap) (k : String) (v : SpendEntry) : SpendMap :=
  if m.any (fun p => p.1 = k) then
    m.map (fun p => if p.1 = k then (k, v) else p)
  else m ++ [(k, v)]

/-- Seeding loop: every category with a truthy id and name is entered with
total 0; others are skipped with a console warning. -/
def seedMap : List Category → SpendMap → SpendMap
  | [], m => m
  | c :: cs, m =>
      seedMap cs (if c.id ≠ "" ∧ c.name ≠ "" then mapSet m c.id (c.name, 0) else m)

/-- `categoryInfo.value += expense.amount` on the mapped entry, a no-op when
the category id is unknown (the warned-and-dropped case). -/
def mapAdd (m : SpendMap) (k : String) (a : ℤ) : SpendMap :=
  m.map (fun p => if p.1 = k then (p.1, (p.2.1, p.2.2 + a)) else p)

/-- One step of the aggregation `forEach`: skip expenses with a falsy category
id or a non-positive/non-numeric amount, then add the amount when the type is
in the spending set `{Need, Want}`. -/
def stepExpense (m : SpendMap) (e : Expense) : SpendMap :=
  if e.category_id = "" ∨ isPosNum e.amount = false then m
  else if e.type = ExpenseType.Need ∨ e.type = ExpenseType.Want then
    mapAdd m e.category_id (numVal e.amount)
  else m

/-- The aggregation `forEach` over the expense list. -/
def aggregateSpend : List Expense → SpendMap → SpendMap
  | [], m => m
  | e :: es, m => aggregateSpend es (stepExpense m e)

/-- The comparator `(a, b) => b.value - a.value`: `a` may precede `b` when
`b.value ≤ a.value` (descending, ties stable). -/
def spendLe (a b : SpendEntry) : Prop := b.2 ≤ a.2

instance : DecidableRel spendLe := fun a b => inferInstanceAs (Decidable (b.2 ≤ a.2))

instance : IsTotal SpendEntry spendLe := ⟨fun a b => le_total b.2 a.2⟩

instance : IsTrans SpendEntry spendLe := ⟨fun _ _ _ h1 h2 => le_trans h2 h1⟩

/-- `categorySpendingData`: empty when either input list is empty; otherwise
seed, aggregate, keep the positive entries and stable-sort them descending by
value. -/
def categorySpendingData (exps : List Expense) (cats : List Category) :
    List SpendEntry :=
  if exps.isEmpty ∨ cats.isEmpty then []
  else
    (((aggregateSpend exps (seedMap cats [])).map (fun p => p.2)).filter
      (fun nv => decide (0 < nv.2))).insertionSort spendLe

/-- `totalSpending`: the reduce over `categorySpendingData`. -/
def totalSpending (exps : List Expense) (cats : List Category) : ℤ :=
  (categorySpendingData exps cats).foldl (fun sum entry => sum + entry.2) 0

/-- Specification-side helper: whether an expense counts toward spending
(truthy category id, positive numeric amount, type `Need` or `Want`). -/
def spendEligible (e : Expense) : Bool :=
  !(e.category_id == "") && isPosNum e.amount &&
    (e.type == ExpenseType.Need || e.type == ExpenseType.Want)

/-- Specification-side helper: the total amount the aggregation should credit
to category id `cid`. -/
def spendTotal (cid : String) (exps : List Expense) : ℤ :=
  ((exps.filter (fun e => spendEligible e && e.category_id == cid)).map
    (fun e => numVal e.amount)).sum

/-! ## Daily spending trend (analytics-page.tsx, spendingTrendData) -/

/-- `expense.timestamp.substring(0, 10)`. -/
def dayKey (s : String) : String := String.mk (s.data.take 10)

/-- The trend map `Map<string, number>`:
`set(dateStr, (get(dateStr) || 0) + amount)`. -/
def trendSet (m : List (String × ℤ)) (k : String) (a : ℤ) : List (String × ℤ) :=
  if m.any (fun p => p.1 = k) then
    m.map (fun p => if p.1 = k then (p.1, p.2 + a) else p)
  else m ++ [(k, a)]

/-- One step of the trend `forEach`: skip expenses with a falsy timestamp or a
non-positive/non-numeric amount (the `!expense.type` test can never fire for
an enum value); bucket by the first 10 characters of the timestamp when the
type is in the spending set. -/
def trendStep (m : List (String × ℤ)) (e : Expense) : List (String × ℤ) :=
  if e.timestamp = "" ∨ isPosNum e.amount = false then m
  else if e.type = ExpenseType.Need ∨ e.type = ExpenseType.Want then
    trendSet m (dayKey e.timestamp) (numVal e.amount)
  else m

/-- The trend `forEach` over the expense list. -/
def trendFold : List Expense → List (String × ℤ) → List (String × ℤ)
  | [], m => m
  | e :: es, m => trendFold es (trendStep m e)

/-- `new Date(dateStr).getTime()` on a bucket key, totalised: a key that is
not a valid `YYYY-MM-DD` date is NaN in JS, where the sort comparator is
unspecified; such keys are outside every claim and are mapped to 0 here. -/
def jsDateVal (s : String) : Int :=
  match jsParseYmd s with
  | some t => t
  | none => 0

/-- The comparator
`(a, b) => new Date(a.date).getTime() - new Date(b.date).getTime()`:
ascending by parsed date value. -/
def trendLe (a b : String × ℤ) : Prop := jsDateVal a.1 ≤ jsDateVal b.1

instance : DecidableRel trendLe :=
  fun a b => inferInstanceAs (Decidable (jsDateVal a.1 ≤ jsDateVal b.1))

instance : IsTotal (String × ℤ) trendLe := ⟨fun a b => le_total (jsDateVal a.1) (jsDateVal b.1)⟩

instance : IsTrans (String × ℤ) trendLe := ⟨fun _ _ _ h1 h2 => le_trans h1 h2⟩

/-- `spendingTrendData`: bucket, then stable-sort ascending by parsed date. -/
def spendingTrendData (exps : List Expense) : List (String × ℤ) :=
  if exps.isEmpty then []
  else (trendFold exps []).insertionSort trendLe

/-- Specification-side helper: whether an expense enters the trend buckets. -/
def trendEligible (e : Expense) : Bool :=
  !(e.timestamp == "") && isPosNum e.amount &&
    (e.type == ExpenseType.Need || e.type == ExpenseType.Want)

/-- Specification-side helper: the total the trend should record for date
bucket `d`. -/
def trendTotal (d : String) (exps : List Expense) : ℤ :=
  ((exps.filter (fun e => trendEligible e && dayKey e.timestamp == d)).map
    (fun e => numVal e.amount)).sum

/-- The new bucket keys created by a run of the trend fold, in first-occurrence
order, given the keys already present. -/
def newKeys : List Expense → List String → List String
  | [], _ => []
  | e :: es, seen =>
      if trendEligible e = true ∧ dayKey e.timestamp ∉ seen then
        dayKey e.timestamp :: newKeys es (seen ++ [dayKey e.timestamp])
      else newKeys es seen

/-- Specification-side helper: `Map.get` on the trend map (value of the first
entry with the key). -/
def trendLookup (m : List (String × ℤ)) (k : String) : Option ℤ :=
  (m.find? (fun p => p.1 = k)).map (fun p => p.2)

/-! ## Concrete inputs used by witnesses and counterexamples -/

/-- A sample expense for the pagination runs. -/
def exA : Expense :=
  ⟨"e1", "c1", "p1", some 10, ExpenseType.Need, "", "2024-01-05T10:00:00.000Z"⟩

/-- The categories of the spec's worked aggregation example. -/
def catFood : Category := ⟨"c1", "Food"⟩

/-- Spec example: 100 on Need. -/
def exNeed100 : Expense :=
  ⟨"e1", "c1", "p1", some 100, ExpenseType.Need, "", "2024-01-02T08:00:00.000Z"⟩

/-- Spec example: 50 on Income (excluded from spending). -/
def exIncome50 : Expense :=
  ⟨"e2", "c1", "p1", some 50, ExpenseType.Income, "", "2024-01-02T09:00:00.000Z"⟩

/-- Spec example: 25 on Want. -/
def exWant25 : Expense :=
  ⟨"e3", "c1", "p1", some 25, ExpenseType.Want, "", "2024-01-01T09:00:00.000Z"⟩

/-- Trend example: 10 on Need dated 2024-01-02. -/
def exTrendB : Expense :=
  ⟨"e4", "c1", "p1", some 10, ExpenseType.Need, "", "2024-01-02T10:00:00.000Z"⟩

/-- Trend example: 5 on Want dated 2024-01-01, listed after the later date. -/
def exTrendA : Expense :=
  ⟨"e5", "c1", "p1", some 5, ExpenseType.Want, "", "2024-01-01T10:00:00.000Z"⟩

/-- A filters object whose start date is a full ISO timestamp (not `YYYY-MM-DD`). -/
def filtersIso : ExpenseFilters :=
  { startDate := some "2024-01-15T00:00:00.000Z", categoryId := some "c7", skip := some 0 }

/-! ## Helper lemmas on record lookup and update -/

theorem lookup_cons_pos {β : Type} (p : String × β) (m : List (String × β)) (q : String)
    (h : p.1 = q) :
    ((p :: m).find? (fun r => r.1 = q)).map (fun r => r.2) = some p.2 := by
  rw [List.find?_cons_of_pos _ (by simp [h])]
  rfl

theorem lookup_cons_neg {β : Type} (p : String × β) (m : List (String × β)) (q : String)
    (h : ¬ p.1 = q) :
    ((p :: m).find? (fun r => r.1 = q)).map (fun r => r.2) =
      (m.find? (fun r => r.1 = q)).map (fun r => r.2) := by
  rw [List.find?_cons_of_neg _ (by simp [h])]

theorem objGet_update_self (m : List (String × String)) (k v : String)
    (h : m.any (fun p => p.1 = k) = true) :
    objGet (m.map (fun p => if p.1 = k then (k, v) else p)) k = some v := by
  induction m with
  | nil => simp at h
  | cons p m ih =>
    rw [List.map_cons]
    by_cases hp : p.1 = k
    · rw [if_pos hp]
      exact lookup_cons_pos (k, v) _ k rfl
    · have h2 : m.any (fun p => p.1 = k) = true := by
        rcases List.any_eq_true.mp h with ⟨x, hx, hxk⟩
        rcases List.mem_cons.mp hx with rfl | hx2
        · simp [hp] at hxk
        · exact List.any_eq_true.mpr ⟨x, hx2, hxk⟩
      rw [if_neg hp]
      rw [show objGet ((p :: List.map (fun p => if p.1 = k then (k, v) else p) m)) k =
        ((p :: List.map (fun p => if p.1 = k then (k, v) else p) m).find?
          (fun r => r.1 = k)).map (fun r => r.2) from rfl]
      rw [lookup_cons_neg p _ k hp]
      exact ih h2

theorem objGet_update_ne (m : List (String × String)) (k v q : String) (hq : q ≠ k) :
    objGet (m.map (fun p => if p.1 = k then (k, v) else p)) q = objGet m q := by
  induction m with
  | nil => rfl
  | cons p m ih =>
    rw [List.map_cons]
    by_cases hp : p.1 = k
    · rw [if_pos hp]
      unfold objGet
      rw [lookup_cons_neg (k, v) _ q (Ne.symm hq), lookup_cons_neg p m q (by rw [hp]; exact Ne.symm hq)]
      exact ih
    · by_cases hpq : p.1 = q
      · rw [if_neg hp]
        unfold objGet
        rw [lookup_cons_pos p _ q hpq, lookup_cons_pos p m q hpq]
      · rw [if_neg hp]
        unfold objGet
        rw [lookup_cons_neg p _ q hpq, lookup_cons_neg p m q hpq]
        exact ih

theorem objGet_append_single_ne (m : List (String × String)) (k v q : String)
    (hq : q ≠ k) : objGet (m ++ [(k, v)]) q = objGet m q := by
  unfold objGet
  rw [List.find?_append]
  have h1 : List.find? (fun p => p.1 = q) [(k, v)] = none := by
    simp [Ne.symm hq]
  rw [h1]
  cases List.find? (fun p => p.1 = q) m <;> rfl

theorem objGet_append_single_self (m : List (String × String)) (k v : String)
    (h : m.any (fun p => p.1 = k) = false) :
    objGet (m ++ [(k, v)]) k = some v := by
  unfold objGet
  rw [List.find?_append]
  have h1 : List.find? (fun p => p.1 = k) m = none := by
    rw [List.find?_eq_none]
    intro x hx
    have h3 := List.any_eq_false.mp h x hx
    simpa using h3
  rw [h1]
  simp

theorem objGet_objSet_self (m : List (String × String)) (k v : String) :
    objGet (objSet m k v) k = some v := by
  unfold objSet
  split
  case isTrue h => exact objGet_update_self m k v h
  case isFalse h =>
    exact objGet_append_single_self m k v (Bool.not_eq_true _ ▸ h)

theorem objGet_objSet_ne (m : List (String × String)) (k v q : String) (hq : q ≠ k) :
    objGet (objSet m k v) q = objGet m q := by
  unfold objSet
  split
  case isTrue h => exact objGet_update_ne m k v q hq
  case isFalse h => exact objGet_append_single_ne m k v q hq

theorem objSet_keys (m : List (String × String)) (k v : String) (p : String × String)
    (hp : p ∈ objSet m k v) : p.1 ∈ m.map (fun r => r.1) ∨ p.1 = k := by
  unfold objSet at hp
  split at hp
  · rcases List.mem_map.mp hp with ⟨r, hr, hrp⟩
    by_cases h : r.1 = k
    · right; rw [← hrp]; simp [h]
    · left; rw [← hrp]; simp only [if_neg h]; exact List.mem_map_of_mem _ hr
  · rcases List.mem_append.mp hp with h | h
    · left; exact List.mem_map_of_mem _ h
    · right; simp only [List.mem_singleton] at h; rw [h]

theorem foldl_objSet_keys (hs : List (String × String)) :
    ∀ (m : List (String × String)) (p : String × String),
      p ∈ hs.foldl (fun m kv => objSet m kv.1 kv.2) m →
      p.1 ∈ m.map (fun r => r.1) ∨ p.1 ∈ hs.map (fun r => r.1) := by
  induction hs with
  | nil => exact fun m p hp => Or.inl (List.mem_map_of_mem _ hp)
  | cons kv hs ih =>
    intro m p hp
    rcases ih (objSet m kv.1 kv.2) p hp with h | h
    · rcases List.mem_map.mp h with ⟨r, hr, hrp⟩
      rcases objSet_keys m kv.1 kv.2 r hr with h2 | h2
      · exact Or.inl (hrp ▸ h2)
      · right; rw [← hrp, h2]; simp
    · right; simp only [List.map_cons, List.mem_cons]; exact Or.inr h

theorem objGet_normalizeHeaders_none (hs : List (String × String)) (k : String)
    (h : ∀ p ∈ hs, p.1 ≠ k) : objGet (normalizeHeaders hs) k = none := by
  unfold objGet
  have h1 : List.find? (fun p => p.1 = k) (normalizeHeaders hs) = none := by
    rw [List.find?_eq_none]
    intro p hp
    simp only [decide_eq_true_eq]
    intro hk
    rcases foldl_objSet_keys hs [] p hp with h2 | h2
    · simp at h2
    · rcases List.mem_map.mp h2 with ⟨r, hr, hrp⟩
      exact h r hr (hrp.trans hk)
  rw [h1]
  rfl

/-! ## Claim theorems -/

/-- C1: the spec claims that a strict `YYYY-MM-DD` start boundary always
normalizes to `00:00:00.000` UTC on that same calendar day (and the
average-spend end boundary to `23:59:59.999` UTC on it) regardless of the
viewer's local timezone.  The code parses the string as UTC midnight but then
rebuilds the instant from the *local* calendar components, so for any viewer
west of UTC (offset `-300` minutes here, UTC−05:00) the transmitted instant
falls on the *previous* calendar day; east of UTC (offset `+330`, UTC+05:30)
it falls on the intended day. -/
theorem claim_C1_date_normalization_shifts_west_of_utc :
    avgSpendStartParam (-300) "2024-01-15" = "2024-01-14T00:00:00.000Z" ∧
    avgSpendEndParam (-300) "2024-01-15" = "2024-01-14T23:59:59.999Z" ∧
    dateParamValue (-300) "2024-01-15" = "2024-01-14T00:00:00.000Z" ∧
    avgSpendStartParam 330 "2024-01-15" = "2024-01-15T00:00:00.000Z" ∧
    avgSpendEndParam 330 "2024-01-15" = "2024-01-15T23:59:59.999Z" ∧
    "2024-01-14T00:00:00.000Z" ≠ "2024-01-15T00:00:00.000Z" := by
  refine ⟨by decide, by decide, by decide, by decide, by decide, by decide⟩

/-- C4: a delete call answered with HTTP 409 surfaces the *generic* failure,
not the distinct conflict message: the api layer throws a constant message for
every non-ok status, so the components' `message.includes("409")` test never
succeeds (and the expenses list has no conflict branch at all). -/
theorem claim_C4_409_surfaces_generic :
    handleDeleteCategory 409 = DeleteSurface.generic ∧
    handleDeletePaymentMethod 409 = DeleteSurface.generic ∧
    handleDeleteExpense 409 = DeleteSurface.generic ∧
    deleteCategory 409 = Except.error "Failed to delete category" ∧
    includes409 "Failed to delete category" = false := by
  refine ⟨by decide, by decide, by decide, by rfl, by decide⟩

/-- C7: the `X-CSRF-Token` header is attached exactly when the path is under
`/api/` but not `/api/auth/`, the method is POST/PUT/PATCH/DELETE, and a
non-empty token is supplied — provided the caller did not put such a header in
its own options. -/
theorem claim_C7_csrf_header_exactly_when (url : String) (method : Option String)
    (hs : List (String × String)) (csrf : Option String)
    (hno : ∀ p ∈ hs, p.1 ≠ "X-CSRF-Token") :
    objGet (fetchWithCredsHeaders url method hs csrf) "X-CSRF-Token" =
      if ((strStartsWith url "/api/" && !(strStartsWith url "/api/auth/")) &&
          (["POST", "PUT", "PATCH", "DELETE"].contains (strToUpper (method.getD "GET"))) &&
          csrfTruthy csrf) = true
      then some (csrf.getD "") else none := by
  have hbase :
      objGet (objSet (normalizeHeaders hs) "Content-Type" "application/json")
        "X-CSRF-Token" = none := by
    rw [objGet_objSet_ne _ _ _ _ (by decide)]
    exact objGet_normalizeHeaders_none hs _ hno
  simp only [fetchWithCredsHeaders]
  by_cases h : ((strStartsWith url "/api/" && !(strStartsWith url "/api/auth/")) &&
      (["POST", "PUT", "PATCH", "DELETE"].contains (strToUpper (method.getD "GET"))) &&
      csrfTruthy csrf) = true
  · simp only [if_pos h]
    exact objGet_objSet_self _ _ _
  · simp only [if_neg h]
    exact hbase

/-- Witness for C7 at the spec's concrete endpoints. -/
theorem claim_C7_csrf_header_exactly_when_witness :
    objGet (fetchWithCredsHeaders "/api/categories" (some "POST") [] (some "tok123"))
        "X-CSRF-Token" = some "tok123" ∧
    objGet (fetchWithCredsHeaders "/api/auth/login" (some "POST") [] (some "tok123"))
        "X-CSRF-Token" = none := by
  constructor
  · rw [claim_C7_csrf_header_exactly_when "/api/categories" (some "POST") [] (some "tok123")
      (by simp)]
    decide
  · rw [claim_C7_csrf_header_exactly_when "/api/auth/login" (some "POST") [] (some "tok123")
      (by simp)]
    decide

/-- C8 as amended: `Content-Type` is unconditionally assigned
`application/json`, overwriting any caller-supplied value under that exact
key (the claim said a caller-supplied value would be preserved). -/
theorem claim_C8_content_type_always_json (url : String) (method : Option String)
    (hs : List (String × String)) (csrf : Option String) :
    objGet (fetchWithCredsHeaders url method hs csrf) "Content-Type" =
      some "application/json" := by
  simp only [fetchWithCredsHeaders]
  split
  · rw [objGet_objSet_ne _ _ _ _ (by decide)]
    exact objGet_objSet_self _ _ _
  · exact objGet_objSet_self _ _ _

/-- Counterexample to C8 as stated: a caller-supplied `Content-Type` of
`text/plain` is not preserved — the wrapper replaces it. -/
theorem claim_C8_counterexample :
    objGet (fetchWithCredsHeaders "/api/expenses" none [("Content-Type", "text/plain")] none)
        "Content-Type" = some "application/json" ∧
    (some "application/json" : Option String) ≠ some "text/plain" := by
  refine ⟨by decide, by decide⟩

/-- C10: with an empty category list (or an empty expense list) the category
spend aggregation is empty and the reported total spending is 0. -/
theorem claim_C10_empty_inputs (exps : List Expense) (cats : List Category)
    (h : exps = [] ∨ cats = []) :
    categorySpendingData exps cats = [] ∧ totalSpending exps cats = 0 := by
  have hl : categorySpendingData exps cats = [] := by
    rcases h with h | h <;> subst h <;> simp [categorySpendingData]
  exact ⟨hl, by simp [totalSpending, hl]⟩

/-- Witness for C10: a non-empty expense list against no categories. -/
theorem claim_C10_empty_inputs_witness :
    categorySpendingData [exNeed100] [] = [] ∧ totalSpending [exNeed100] [] = 0 :=
  claim_C10_empty_inputs [exNeed100] [] (Or.inr rfl)

/-! ## Pagination lemmas -/

/-- Running the loop through a block of full pages advances `skip` by
`limit` per page, accumulates the pages in order, and records one call per
page. -/
theorem fetchLoop_full_pages (limit : Nat) (pss : List (List Expense)) :
    ∀ (rest : List PageResponse) (skip : Nat) (acc : List Expense) (skips : List Nat),
      (∀ ps ∈ pss, ps.length = limit) →
      fetchLoop limit (pss.map PageResponse.ok ++ rest) skip acc skips =
        fetchLoop limit rest (skip + limit * pss.length) (acc ++ pss.flatten)
          (skips ++ (List.range pss.length).map (fun i => skip + limit * i)) := by
  induction pss with
  | nil => intro rest skip acc skips _; simp
  | cons ps pss ih =>
    intro rest skip acc skips h
    have hps : ps.length = limit := h ps (List.mem_cons_self _ _)
    have hrest : ∀ q ∈ pss, q.length = limit := fun q hq => h q (List.mem_cons_of_mem _ hq)
    rw [List.map_cons, List.cons_append]
    rw [show fetchLoop limit (PageResponse.ok ps :: (pss.map PageResponse.ok ++ rest)) skip acc skips =
      if ps.length < limit then
        some ⟨acc ++ ps, skips ++ [skip], finishToasts (acc ++ ps) skip⟩
      else fetchLoop limit (pss.map PageResponse.ok ++ rest) (skip + limit) (acc ++ ps)
        (skips ++ [skip]) from rfl]
    rw [if_neg (by omega)]
    rw [ih rest (skip + limit) (acc ++ ps) (skips ++ [skip]) hrest]
    have harg1 : skip + limit + limit * pss.length = skip + limit * (ps :: pss).length := by
      simp [List.length_cons, Nat.mul_succ]
      ring
    have harg2 : (acc ++ ps) ++ pss.flatten = acc ++ (ps :: pss).flatten := by
      simp [List.flatten]
    have hmap : (List.range pss.length).map (fun i => skip + limit + limit * i) =
        (List.range pss.length).map ((fun i => skip + limit * i) ∘ Nat.succ) := by
      apply List.map_congr_left
      intro i _
      simp only [Function.comp_apply, Nat.succ_eq_add_one]
      ring
    have harg3 : (skips ++ [skip]) ++ (List.range pss.length).map (fun i => skip + limit + limit * i) =
        skips ++ (List.range (ps :: pss).length).map (fun i => skip + limit * i) := by
      rw [List.append_assoc, List.length_cons, List.range_succ_eq_map, List.map_cons,
        List.map_map, List.singleton_append, hmap]
      simp
    rw [harg1, harg2, harg3]

/-- C2: the paginated fetcher, given any block of full pages followed by one
short page, issues one call per page with `skip = 0, limit, 2·limit, …`,
accumulates all pages in order, and stops at the short page.  The `skips`
field lists the `skip` value of every issued call, so `pages = [500, 500,
137]` gives 3 calls at `0, 500, 1000` with 1137 items (see the witness), and
an empty first page gives one call and no items. -/
theorem claim_C2_pagination (pss : List (List Expense)) (last : List Expense)
    (hfull : ∀ ps ∈ pss, ps.length = DATA_FETCH_LIMIT)
    (hlast : last.length < DATA_FETCH_LIMIT) :
    fetchAllExpensesForRange (pss.map PageResponse.ok ++ [PageResponse.ok last]) =
      some ⟨pss.flatten ++ last,
        (List.range (pss.length + 1)).map (fun i => DATA_FETCH_LIMIT * i),
        finishToasts (pss.flatten ++ last) (DATA_FETCH_LIMIT * pss.length)⟩ := by
  unfold fetchAllExpensesForRange
  rw [fetchLoop_full_pages DATA_FETCH_LIMIT pss [PageResponse.ok last] 0 [] [] hfull]
  rw [show fetchLoop DATA_FETCH_LIMIT [PageResponse.ok last] (0 + DATA_FETCH_LIMIT * pss.length)
      ([] ++ pss.flatten) ([] ++ (List.range pss.length).map (fun i => 0 + DATA_FETCH_LIMIT * i)) =
    if last.length < DATA_FETCH_LIMIT then
      some ⟨([] ++ pss.flatten) ++ last,
        ([] ++ (List.range pss.length).map (fun i => 0 + DATA_FETCH_LIMIT * i)) ++
          [0 + DATA_FETCH_LIMIT * pss.length],
        finishToasts (([] ++ pss.flatten) ++ last) (0 + DATA_FETCH_LIMIT * pss.length)⟩
    else fetchLoop DATA_FETCH_LIMIT [] (0 + DATA_FETCH_LIMIT * pss.length + DATA_FETCH_LIMIT)
      (([] ++ pss.flatten) ++ last)
      (([] ++ (List.range pss.length).map (fun i => 0 + DATA_FETCH_LIMIT * i)) ++
        [0 + DATA_FETCH_LIMIT * pss.length]) from rfl]
  rw [if_pos hlast]
  simp [List.range_succ]

/-- Witness for C2: pages of sizes 500, 500, 137 produce exactly 3 calls at
skips 0, 500, 1000 and 1137 items in request order; an empty first page
produces one call and the empty result. -/
theorem claim_C2_pagination_witness :
    fetchAllExpensesForRange
        ([List.replicate 500 exA, List.replicate 500 exA].map PageResponse.ok ++
          [PageResponse.ok (List.replicate 137 exA)]) =
      some ⟨[List.replicate 500 exA, List.replicate 500 exA].flatten ++ List.replicate 137 exA,
        (List.range 3).map (fun i => DATA_FETCH_LIMIT * i),
        finishToasts ([List.replicate 500 exA, List.replicate 500 exA].flatten ++
          List.replicate 137 exA) (DATA_FETCH_LIMIT * 2)⟩ ∧
    ([List.replicate 500 exA, List.replicate 500 exA].flatten ++ List.replicate 137 exA).length = 1137 ∧
    (List.range 3).map (fun i => DATA_FETCH_LIMIT * i) = [0, 500, 1000] ∧
    fetchAllExpensesForRange [PageResponse.ok []] =
      some ⟨[], [0], [Toast.infoNoExpenses]⟩ := by
  refine ⟨?_, by simp [DATA_FETCH_LIMIT], by decide, ?_⟩
  · exact claim_C2_pagination [List.replicate 500 exA, List.replicate 500 exA]
      (List.replicate 137 exA)
      (by
        intro ps hps
        simp only [List.mem_cons, List.mem_singleton, List.not_mem_nil, or_false] at hps
        rcases hps with rfl | rfl <;> simp [DATA_FETCH_LIMIT])
      (by simp [DATA_FETCH_LIMIT])
  · have h := claim_C2_pagination [] [] (by intro ps hps; cases hps)
      (by simp [DATA_FETCH_LIMIT])
    simpa [finishToasts] using h

/-- Counterexample to C3 as stated: a thrown request failure on the *second*
page (skip = 500 > 0) discards the 500 already-accumulated expenses instead
of keeping them. -/
theorem claim_C3_counterexample :
    fetchAllExpensesForRange [PageResponse.ok (List.replicate 500 exA), PageResponse.thrown] =
      some ⟨[], [0, 500], [Toast.errorFetchThrown]⟩ ∧
    List.replicate 500 exA ≠ ([] : List Expense) := by
  constructor
  · unfold fetchAllExpensesForRange
    rw [show ([PageResponse.ok (List.replicate 500 exA), PageResponse.thrown] : List PageResponse) =
      [List.replicate 500 exA].map PageResponse.ok ++ [PageResponse.thrown] from rfl]
    rw [fetchLoop_full_pages DATA_FETCH_LIMIT [List.replicate 500 exA] [PageResponse.thrown] 0 [] []
      (by
        intro ps hps
        simp only [List.mem_singleton] at hps
        subst hps
        simp [DATA_FETCH_LIMIT])]
    simp [fetchLoop, DATA_FETCH_LIMIT, List.range_succ]
  · simp

/-- C3 as amended: a **thrown** request failure (network error or non-ok
status) clears all partial results and surfaces the fetch-failed error no
matter which page it hits; only a **malformed-format** response distinguishes
pages — on the first page it clears results with a format error (plus the
empty-state info toast), on a later page it keeps the accumulated data and
raises the may-be-incomplete warning. -/
theorem claim_C3_failure_semantics (pss : List (List Expense)) (rest : List PageResponse)
    (hfull : ∀ ps ∈ pss, ps.length = DATA_FETCH_LIMIT) :
    (fetchAllExpensesForRange (pss.map PageResponse.ok ++ PageResponse.thrown :: rest) =
      some ⟨[], (List.range (pss.length + 1)).map (fun i => DATA_FETCH_LIMIT * i),
        [Toast.errorFetchThrown]⟩) ∧
    (fetchAllExpensesForRange (PageResponse.badFormat :: rest) =
      some ⟨[], [0], [Toast.errorBadFormat, Toast.infoNoExpenses]⟩) ∧
    (pss ≠ [] →
      fetchAllExpensesForRange (pss.map PageResponse.ok ++ PageResponse.badFormat :: rest) =
        some ⟨pss.flatten, (List.range (pss.length + 1)).map (fun i => DATA_FETCH_LIMIT * i),
          Toast.warnIncomplete :: finishToasts pss.flatten (DATA_FETCH_LIMIT * pss.length)⟩) := by
  refine ⟨?_, ?_, ?_⟩
  · unfold fetchAllExpensesForRange
    rw [fetchLoop_full_pages DATA_FETCH_LIMIT pss (PageResponse.thrown :: rest) 0 [] [] hfull]
    rw [show fetchLoop DATA_FETCH_LIMIT (PageResponse.thrown :: rest)
        (0 + DATA_FETCH_LIMIT * pss.length) ([] ++ pss.flatten)
        ([] ++ (List.range pss.length).map (fun i => 0 + DATA_FETCH_LIMIT * i)) =
      some ⟨[], ([] ++ (List.range pss.length).map (fun i => 0 + DATA_FETCH_LIMIT * i)) ++
        [0 + DATA_FETCH_LIMIT * pss.length], [Toast.errorFetchThrown]⟩ from rfl]
    simp [List.range_succ]
  · rw [show fetchAllExpensesForRange (PageResponse.badFormat :: rest) =
      some ⟨[], [] ++ [0], (if 0 = 0 then [Toast.errorBadFormat] else [Toast.warnIncomplete]) ++
        finishToasts [] 0⟩ from rfl]
    simp [finishToasts]
  · intro hne
    unfold fetchAllExpensesForRange
    rw [fetchLoop_full_pages DATA_FETCH_LIMIT pss (PageResponse.badFormat :: rest) 0 [] [] hfull]
    rw [show fetchLoop DATA_FETCH_LIMIT (PageResponse.badFormat :: rest)
        (0 + DATA_FETCH_LIMIT * pss.length) ([] ++ pss.flatten)
        ([] ++ (List.range pss.length).map (fun i => 0 + DATA_FETCH_LIMIT * i)) =
      some ⟨[] ++ pss.flatten,
        ([] ++ (List.range pss.length).map (fun i => 0 + DATA_FETCH_LIMIT * i)) ++
          [0 + DATA_FETCH_LIMIT * pss.length],
        (if 0 + DATA_FETCH_LIMIT * pss.length = 0 then [Toast.errorBadFormat]
          else [Toast.warnIncomplete]) ++
          finishToasts ([] ++ pss.flatten) (0 + DATA_FETCH_LIMIT * pss.length)⟩ from rfl]
    have hpos : ¬ (0 + DATA_FETCH_LIMIT * pss.length = 0) := by
      have h0 : pss.length ≠ 0 := fun hh => hne (List.length_eq_zero.mp hh)
      intro hcontra
      rw [Nat.zero_add] at hcontra
      rcases Nat.mul_eq_zero.mp hcontra with hl | hl
      · exact absurd hl (by decide)
      · exact h0 hl
    rw [if_neg hpos]
    simp [List.range_succ]

/-- Witness for C3 as amended: one full page then a malformed page keeps the
500 fetched expenses with a warning; a malformed first page clears and
errors. -/
theorem claim_C3_failure_semantics_witness :
    fetchAllExpensesForRange [PageResponse.ok (List.replicate 500 exA), PageResponse.badFormat] =
      some ⟨List.replicate 500 exA, [0, 500],
        [Toast.warnIncomplete, Toast.successCount 500]⟩ ∧
    fetchAllExpensesForRange [PageResponse.badFormat] =
      some ⟨[], [0], [Toast.errorBadFormat, Toast.infoNoExpenses]⟩ := by
  have h := claim_C3_failure_semantics [List.replicate 500 exA] []
    (by
      intro ps hps
      simp only [List.mem_singleton] at hps
      subst hps
      simp [DATA_FETCH_LIMIT])
  refine ⟨?_, h.2.1⟩
  have h3 := h.2.2 (by simp)
  simpa [DATA_FETCH_LIMIT, finishToasts, List.range_succ] using h3

/-! ## Category spend aggregation lemmas -/

theorem mapSet_fresh (m : SpendMap) (k : String) (v : SpendEntry)
    (h : ∀ p ∈ m, p.1 ≠ k) : mapSet m k v = m ++ [(k, v)] := by
  have hany : m.any (fun p => p.1 = k) = false := by
    rw [List.any_eq_false]
    intro p hp
    simpa using h p hp
  unfold mapSet
  rw [hany]
  simp

theorem seedMap_eq (cats : List Category) :
    ∀ m : SpendMap,
      (∀ c ∈ cats, c.id ≠ "" ∧ c.name ≠ "") →
      (cats.map Category.id).Nodup →
      (∀ c ∈ cats, ∀ p ∈ m, p.1 ≠ c.id) →
      seedMap cats m = m ++ cats.map (fun c => (c.id, (c.name, 0))) := by
  induction cats with
  | nil => intro m _ _ _; simp [seedMap]
  | cons c cs ih =>
    intro m hids hnd hfresh
    have hc := hids c (List.mem_cons_self _ _)
    have hnd2 : (c.id ∉ cs.map Category.id) ∧ (cs.map Category.id).Nodup := by
      rw [List.map_cons] at hnd
      exact List.nodup_cons.mp hnd
    rw [seedMap, if_pos hc,
      mapSet_fresh m c.id (c.name, 0) (fun p hp => hfresh c (List.mem_cons_self _ _) p hp),
      ih (m ++ [(c.id, (c.name, 0))]) (fun d hd => hids d (List.mem_cons_of_mem _ hd)) hnd2.2 ?_]
    · simp
    · intro d hd p hp
      rcases List.mem_append.mp hp with hp2 | hp2
      · exact hfresh d (List.mem_cons_of_mem _ hd) p hp2
      · simp only [List.mem_singleton] at hp2
        subst hp2
        show c.id ≠ d.id
        intro he
        exact hnd2.1 (by rw [he]; exact List.mem_map_of_mem Category.id hd)

theorem spendTotal_cons (cid : String) (e : Expense) (es : List Expense) :
    spendTotal cid (e :: es) =
      (if (spendEligible e && e.category_id == cid) = true then numVal e.amount else 0) +
        spendTotal cid es := by
  unfold spendTotal
  rw [List.filter_cons]
  by_cases h : (spendEligible e && e.category_id == cid) = true
  · rw [if_pos h, if_pos h]
    simp
  · rw [if_neg h, if_neg h]
    simp

theorem aggregateSpend_eq (es : List Expense) :
    ∀ m : SpendMap,
      aggregateSpend es m = m.map (fun p => (p.1, (p.2.1, p.2.2 + spendTotal p.1 es))) := by
  induction es with
  | nil =>
    intro m
    rw [aggregateSpend]
    have hfun : (fun p : String × SpendEntry => (p.1, (p.2.1, p.2.2 + spendTotal p.1 []))) =
        id := by
      funext p
      simp [spendTotal]
    rw [hfun, List.map_id]
  | cons e es ih =>
    intro m
    rw [aggregateSpend, ih]
    by_cases h1 : e.category_id = "" ∨ isPosNum e.amount = false
    · have hstep : stepExpense m e = m := by rw [stepExpense, if_pos h1]
      have helig : spendEligible e = false := by
        rcases h1 with h | h
        · simp [spendEligible, h]
        · simp [spendEligible, h]
      rw [hstep]
      apply List.map_congr_left
      intro p _
      rw [spendTotal_cons]
      simp [helig]
    · have hcid : (e.category_id == "") = false :=
        beq_eq_false_iff_ne.mpr (not_or.mp h1).1
      have hpos : isPosNum e.amount = true := by
        cases hb : isPosNum e.amount
        · exact absurd hb (not_or.mp h1).2
        · rfl
      by_cases h2 : e.type = ExpenseType.Need ∨ e.type = ExpenseType.Want
      · have hstep : stepExpense m e = mapAdd m e.category_id (numVal e.amount) := by
          rw [stepExpense, if_neg h1, if_pos h2]
        have htypeb : (e.type == ExpenseType.Need || e.type == ExpenseType.Want) = true := by
          rcases h2 with h | h <;> simp [h]
        have helig : spendEligible e = true := by
          simp [spendEligible, hcid, hpos, htypeb]
        rw [hstep]
        unfold mapAdd
        rw [List.map_map]
        apply List.map_congr_left
        intro p _
        simp only [Function.comp_apply]
        by_cases hp : p.1 = e.category_id
        · rw [if_pos hp, spendTotal_cons]
          have hcond : (spendEligible e && e.category_id == p.1) = true := by
            rw [helig, hp]
            simp
          rw [hcond]
          simp [add_assoc]
        · rw [if_neg hp, spendTotal_cons]
          have hcond : (spendEligible e && e.category_id == p.1) = false := by
            have hne : e.category_id ≠ p.1 := fun hh => hp hh.symm
            simp [beq_eq_false_iff_ne.mpr hne]
          rw [hcond]
          simp
      · have hstep : stepExpense m e = m := by
          rw [stepExpense, if_neg h1, if_neg h2]
        have helig : spendEligible e = false := by
          have hn := not_or.mp h2
          have htypeb : (e.type == ExpenseType.Need || e.type == ExpenseType.Want) = false := by
            simp [hn.1, hn.2]
          simp [spendEligible, htypeb]
        rw [hstep]
        apply List.map_congr_left
        intro p _
        rw [spendTotal_cons]
        simp [helig]

theorem foldl_add_snd (l : List SpendEntry) : ∀ init : ℤ,
    l.foldl (fun sum entry => sum + entry.2) init = init + (l.map (fun p => p.2)).sum := by
  induction l with
  | nil => intro init; simp
  | cons p l ih => intro init; simp [List.foldl_cons, ih, add_assoc]

/-- C5: the per-category totals credit exactly the expenses with a truthy
category id known to the category list, a positive numeric amount, and type
`Need` or `Want` (`spendTotal`); the emitted entries are exactly those with a
positive total, stable-sorted descending by total (ties keep category-list
order, because the sort is stable over the list built in category order); and
the reported total spending is the sum of the emitted entries. -/
theorem claim_C5_category_aggregation (exps : List Expense) (cats : List Category)
    (hids : ∀ c ∈ cats, c.id ≠ "" ∧ c.name ≠ "")
    (hnd : (cats.map Category.id).Nodup) :
    categorySpendingData exps cats =
      ((cats.map (fun c => (c.name, spendTotal c.id exps))).filter
        (fun nv => decide (0 < nv.2))).insertionSort spendLe ∧
    (categorySpendingData exps cats).Pairwise spendLe ∧
    (∀ p ∈ categorySpendingData exps cats, 0 < p.2) ∧
    totalSpending exps cats = ((categorySpendingData exps cats).map (fun p => p.2)).sum := by
  have hmain : categorySpendingData exps cats =
      ((cats.map (fun c => (c.name, spendTotal c.id exps))).filter
        (fun nv => decide (0 < nv.2))).insertionSort spendLe := by
    unfold categorySpendingData
    split
    case isTrue hemp =>
      rcases hemp with he | hcempty
      · have hexps : exps = [] := List.isEmpty_iff.mp he
        subst hexps
        have hf : ((cats.map (fun c => (c.name, spendTotal c.id ([] : List Expense)))).filter
            (fun nv => decide (0 < nv.2))) = [] := by
          rw [List.filter_eq_nil_iff]
          intro a ha
          rcases List.mem_map.mp ha with ⟨c, _, rfl⟩
          simp [spendTotal]
        rw [hf]
        rfl
      · have hcats : cats = [] := List.isEmpty_iff.mp hcempty
        subst hcats
        rfl
    case isFalse hne =>
      have hcomp : ((aggregateSpend exps (seedMap cats [])).map (fun p => p.2)) =
          cats.map (fun c => (c.name, spendTotal c.id exps)) := by
        rw [seedMap_eq cats [] hids hnd (by intro c _ p hp; cases hp), List.nil_append,
          aggregateSpend_eq, List.map_map, List.map_map]
        apply List.map_congr_left
        intro c _
        simp
      rw [hcomp]
  refine ⟨hmain, ?_, ?_, ?_⟩
  · rw [hmain]
    exact List.sorted_insertionSort spendLe _
  · intro p hp
    rw [hmain] at hp
    have hp2 := (List.mem_insertionSort spendLe).mp hp
    have hp3 := (List.mem_filter.mp hp2).2
    simpa using hp3
  · unfold totalSpending
    rw [foldl_add_snd]
    simp

/-- Witness for C5 at the spec's worked example: Need 100 + Want 25 counted,
Income 50 excluded, total 125. -/
theorem claim_C5_category_aggregation_witness :
    (categorySpendingData [exNeed100, exIncome50, exWant25] [catFood] =
      (([catFood].map (fun c => (c.name, spendTotal c.id [exNeed100, exIncome50, exWant25]))).filter
        (fun nv => decide (0 < nv.2))).insertionSort spendLe ∧
    (categorySpendingData [exNeed100, exIncome50, exWant25] [catFood]).Pairwise spendLe ∧
    (∀ p ∈ categorySpendingData [exNeed100, exIncome50, exWant25] [catFood], 0 < p.2) ∧
    totalSpending [exNeed100, exIncome50, exWant25] [catFood] =
      ((categorySpendingData [exNeed100, exIncome50, exWant25] [catFood]).map
        (fun p => p.2)).sum) ∧
    categorySpendingData [exNeed100, exIncome50, exWant25] [catFood] = [("Food", 125)] ∧
    totalSpending [exNeed100, exIncome50, exWant25] [catFood] = 125 := by
  refine ⟨claim_C5_category_aggregation _ _ ?_ ?_, by decide, by decide⟩
  · intro c hc
    simp only [List.mem_singleton] at hc
    subst hc
    exact ⟨by decide, by decide⟩
  · decide

/-- C9: a defined `startDate`/`endDate` filter whose string value does not
match the strict `YYYY-MM-DD` pattern is transmitted unchanged (no date
conversion), and filters with undefined values are omitted from the query
string entirely. -/
theorem claim_C9_nonmatching_dates_passthrough (tz : Int) (f : ExpenseFilters) (s : String)
    (hs : ymdMatches s = false) :
    (f.startDate = some s → objGet (getExpensesQueryParams tz f) "startDate" = some s) ∧
    (f.endDate = some s → objGet (getExpensesQueryParams tz f) "endDate" = some s) ∧
    (f.startDate = none → objGet (getExpensesQueryParams tz f) "startDate" = none) ∧
    (f.endDate = none → objGet (getExpensesQueryParams tz f) "endDate" = none) ∧
    (f.categoryId = none → objGet (getExpensesQueryParams tz f) "categoryId" = none) ∧
    (f.paymentMethodId = none → objGet (getExpensesQueryParams tz f) "paymentMethodId" = none) ∧
    (f.type = none → objGet (getExpensesQueryParams tz f) "type" = none) ∧
    (f.skip = none → objGet (getExpensesQueryParams tz f) "skip" = none) ∧
    (f.limit = none → objGet (getExpensesQueryParams tz f) "limit" = none) := by
  obtain ⟨sd, ed, ci, pm, ty, sk, li⟩ := f
  cases sd <;> cases ed <;> cases ci <;> cases pm <;> cases ty <;> cases sk <;> cases li <;>
    simp [getExpensesQueryParams, objGet, dateParamValue, hs] <;>
    (first
      | (constructor <;> (intro h2; subst h2; simp [hs]))
      | (intro h2; subst h2; simp [hs]))

/-- Witness for C9: a full ISO timestamp as `startDate` passes through
unchanged, and the undefined `endDate`/`type` fields are absent. -/
theorem claim_C9_nonmatching_dates_passthrough_witness :
    objGet (getExpensesQueryParams 0 filtersIso) "startDate" =
      some "2024-01-15T00:00:00.000Z" ∧
    objGet (getExpensesQueryParams 0 filtersIso) "endDate" = none ∧
    objGet (getExpensesQueryParams 0 filtersIso) "type" = none := by
  have h := claim_C9_nonmatching_dates_passthrough 0 filtersIso "2024-01-15T00:00:00.000Z"
    (by decide)
  exact ⟨h.1 rfl, h.2.2.2.1 rfl, h.2.2.2.2.2.2.1 rfl⟩

/-! ## Daily trend lemmas -/

theorem trendTotal_cons (d : String) (e : Expense) (es : List Expense) :
    trendTotal d (e :: es) =
      (if (trendEligible e && dayKey e.timestamp == d) = true then numVal e.amount else 0) +
        trendTotal d es := by
  unfold trendTotal
  rw [List.filter_cons]
  by_cases h : (trendEligible e && dayKey e.timestamp == d) = true
  · rw [if_pos h, if_pos h]
    simp
  · rw [if_neg h, if_neg h]
    simp

theorem trendStep_eq (m : List (String × ℤ)) (e : Expense) :
    trendStep m e =
      if trendEligible e = true then trendSet m (dayKey e.timestamp) (numVal e.amount)
      else m := by
  unfold trendStep
  by_cases h1 : e.timestamp = "" ∨ isPosNum e.amount = false
  · have helig : trendEligible e = false := by
      rcases h1 with h | h <;> simp [trendEligible, h]
    rw [if_pos h1, helig]
    simp
  · have hts : (e.timestamp == "") = false := beq_eq_false_iff_ne.mpr (not_or.mp h1).1
    have hpos : isPosNum e.amount = true := by
      cases hb : isPosNum e.amount
      · exact absurd hb (not_or.mp h1).2
      · rfl
    rw [if_neg h1]
    by_cases h2 : e.type = ExpenseType.Need ∨ e.type = ExpenseType.Want
    · have htypeb : (e.type == ExpenseType.Need || e.type == ExpenseType.Want) = true := by
        rcases h2 with h | h <;> simp [h]
      have helig : trendEligible e = true := by
        simp [trendEligible, hts, hpos, htypeb]
      rw [if_pos h2, helig]
      simp
    · have htypeb : (e.type == ExpenseType.Need || e.type == ExpenseType.Want) = false := by
        have hn := not_or.mp h2
        simp [hn.1, hn.2]
      have helig : trendEligible e = false := by
        simp [trendEligible, htypeb]
      rw [if_neg h2, helig]
      simp

theorem find?_key_map {β : Type} (g : String × β → String × β)
    (hg : ∀ p, (g p).1 = p.1) (m : List (String × β)) (q : String) :
    (m.map g).find? (fun p => p.1 = q) = (m.find? (fun p => p.1 = q)).map g := by
  induction m with
  | nil => rfl
  | cons p m ih =>
    by_cases hp : p.1 = q
    · rw [List.map_cons, List.find?_cons_of_pos _ (by simp [hg, hp]),
        List.find?_cons_of_pos _ (by simp [hp])]
      rfl
    · rw [List.map_cons, List.find?_cons_of_neg _ (by simp [hg, hp]),
        List.find?_cons_of_neg _ (by simp [hp]), ih]

theorem trendSet_update_keys (m : List (String × ℤ)) (k : String) (a : ℤ) :
    (m.map (fun p => if p.1 = k then (p.1, p.2 + a) else p)).map (fun p => p.1) =
      m.map (fun p => p.1) := by
  rw [List.map_map]
  apply List.map_congr_left
  intro p _
  by_cases h : p.1 = k <;> simp [h]

theorem trendLookup_trendSet_getD (m : List (String × ℤ)) (k : String) (a : ℤ) (d : String) :
    (trendLookup (trendSet m k a) d).getD 0 =
      (trendLookup m d).getD 0 + (if d = k then a else 0) := by
  have hg : ∀ p : String × ℤ, ((fun p : String × ℤ => if p.1 = k then (p.1, p.2 + a) else p) p).1 = p.1 := by
    intro p
    by_cases h : p.1 = k <;> simp [h]
  unfold trendSet
  split
  case isTrue hany =>
    unfold trendLookup
    rw [find?_key_map _ hg]
    by_cases hd : d = k
    · subst hd
      have hsome : (m.find? (fun p => p.1 = d)).isSome = true := by
        rw [List.find?_isSome]
        rcases List.any_eq_true.mp hany with ⟨p, hp, hpk⟩
        exact ⟨p, hp, hpk⟩
      rcases Option.isSome_iff_exists.mp hsome with ⟨p0, hp0⟩
      have hkey : p0.1 = d := by simpa using List.find?_some hp0
      rw [hp0]
      simp [hkey]
    · rcases hfind : m.find? (fun p => p.1 = d) with _ | p0
      · rw [hfind]
        simp [hd]
      · have hkey : p0.1 = d := by simpa using List.find?_some hfind
        have hne : ¬ p0.1 = k := by rw [hkey]; exact hd
        rw [hfind]
        simp [hne, hd]
  case isFalse hany =>
    unfold trendLookup
    rw [List.find?_append]
    have hnone : m.find? (fun p => p.1 = k) = none := by
      rw [List.find?_eq_none]
      intro p hp
      have h2 := List.any_eq_false.mp (Bool.not_eq_true _ ▸ hany) p hp
      simpa using h2
    by_cases hd : d = k
    · subst hd
      rw [hnone]
      simp
    · rcases hfind : m.find? (fun p => p.1 = d) with _ | p0
      · rw [hfind]
        simp [Ne.symm hd, hd]
      · rw [hfind]
        simp [Ne.symm hd, hd]

theorem trendSet_keys_mem (m : List (String × ℤ)) (k : String) (a : ℤ) (d : String) :
    d ∈ (trendSet m k a).map (fun p => p.1) ↔ d ∈ m.map (fun p => p.1) ∨ d = k := by
  unfold trendSet
  split
  case isTrue hany =>
    rw [trendSet_update_keys]
    constructor
    · exact Or.inl
    · rintro (h | h)
      · exact h
      · subst h
        rcases List.any_eq_true.mp hany with ⟨p, hp, hpk⟩
        simp only [decide_eq_true_eq] at hpk
        rw [← hpk]
        exact List.mem_map_of_mem _ hp
  case isFalse hany =>
    simp [List.mem_append]

theorem trendSet_keys_nodup (m : List (String × ℤ)) (k : String) (a : ℤ)
    (h : (m.map (fun p => p.1)).Nodup) :
    ((trendSet m k a).map (fun p => p.1)).Nodup := by
  unfold trendSet
  split
  case isTrue hany =>
    rw [trendSet_update_keys]
    exact h
  case isFalse hany =>
    rw [List.map_append]
    refine List.Nodup.append h (List.nodup_singleton k) ?_
    intro x hx hk
    simp only [List.map_cons, List.map_nil, List.mem_singleton] at hk
    subst hk
    rcases List.mem_map.mp hx with ⟨p, hp, hpk⟩
    have h2 := List.any_eq_false.mp (Bool.not_eq_true _ ▸ hany) p hp
    simp [hpk] at h2

theorem trendFold_lookup (es : List Expense) :
    ∀ (m : List (String × ℤ)) (d : String),
      (trendLookup (trendFold es m) d).getD 0 =
        (trendLookup m d).getD 0 + trendTotal d es := by
  induction es with
  | nil => intro m d; simp [trendFold, trendTotal]
  | cons e es ih =>
    intro m d
    rw [trendFold, trendStep_eq]
    by_cases helig : trendEligible e = true
    · rw [if_pos helig, ih, trendLookup_trendSet_getD, trendTotal_cons]
      have hcond : (trendEligible e && dayKey e.timestamp == d) = true ↔ d = dayKey e.timestamp := by
        rw [helig]
        constructor
        · intro hx
          have hx2 : (dayKey e.timestamp == d) = true := by simpa using hx
          exact (beq_iff_eq.mp hx2).symm
        · intro hx
          subst hx
          simp
      by_cases hd : d = dayKey e.timestamp
      · rw [if_pos hd, if_pos (hcond.mpr hd)]
        ring
      · rw [if_neg hd, if_neg (fun hc => hd (hcond.mp hc))]
        ring
    · have hf : trendEligible e = false := Bool.not_eq_true _ ▸ helig
      rw [if_neg helig, ih, trendTotal_cons]
      rw [show (trendEligible e && dayKey e.timestamp == d) = false from by simp [hf]]
      simp

theorem trendFold_keys (es : List Expense) :
    ∀ (m : List (String × ℤ)) (d : String),
      d ∈ (trendFold es m).map (fun p => p.1) ↔
        d ∈ m.map (fun p => p.1) ∨ ∃ e ∈ es, trendEligible e = true ∧ dayKey e.timestamp = d := by
  induction es with
  | nil => intro m d; simp [trendFold]
  | cons e es ih =>
    intro m d
    rw [trendFold, trendStep_eq]
    by_cases helig : trendEligible e = true
    · rw [if_pos helig, ih, trendSet_keys_mem]
      constructor
      · rintro ((h | h) | h)
        · exact Or.inl h
        · exact Or.inr ⟨e, List.mem_cons_self _ _, helig, h.symm⟩
        · rcases h with ⟨e2, he2, h1, h2⟩
          exact Or.inr ⟨e2, List.mem_cons_of_mem _ he2, h1, h2⟩
      · rintro (h | ⟨e2, he2, h1, h2⟩)
        · exact Or.inl (Or.inl h)
        · rcases List.mem_cons.mp he2 with rfl | he3
          · exact Or.inl (Or.inr h2.symm)
          · exact Or.inr ⟨e2, he3, h1, h2⟩
    · rw [if_neg helig, ih]
      constructor
      · rintro (h | ⟨e2, he2, h1, h2⟩)
        · exact Or.inl h
        · exact Or.inr ⟨e2, List.mem_cons_of_mem _ he2, h1, h2⟩
      · rintro (h | ⟨e2, he2, h1, h2⟩)
        · exact Or.inl h
        · rcases List.mem_cons.mp he2 with rfl | he3
          · exact absurd h1 helig
          · exact Or.inr ⟨e2, he3, h1, h2⟩

theorem trendFold_keys_nodup (es : List Expense) :
    ∀ m : List (String × ℤ), (m.map (fun p => p.1)).Nodup →
      ((trendFold es m).map (fun p => p.1)).Nodup := by
  induction es with
  | nil => intro m h; exact h
  | cons e es ih =>
    intro m h
    rw [trendFold, trendStep_eq]
    by_cases helig : trendEligible e = true
    · rw [if_pos helig]
      exact ih _ (trendSet_keys_nodup _ _ _ h)
    · rw [if_neg helig]
      exact ih _ h

theorem trendLookup_mem_of_nodup (m : List (String × ℤ)) (p : String × ℤ)
    (hnd : (m.map (fun q => q.1)).Nodup) (hp : p ∈ m) :
    trendLookup m p.1 = some p.2 := by
  induction m with
  | nil => cases hp
  | cons q m ih =>
    have hnd2 : q.1 ∉ m.map (fun r => r.1) ∧ (m.map (fun r => r.1)).Nodup := by
      rw [List.map_cons] at hnd
      exact List.nodup_cons.mp hnd
    rcases List.mem_cons.mp hp with rfl | hp2
    · unfold trendLookup
      rw [List.find?_cons_of_pos _ (by simp)]
      rfl
    · have hq : ¬ q.1 = p.1 := by
        intro he
        apply hnd2.1
        rw [he]
        exact List.mem_map_of_mem _ hp2
      unfold trendLookup
      rw [List.find?_cons_of_neg _ (by simp [hq])]
      exact ih hnd2.2 hp2

/-- C6: the daily trend credits each bucket `d` with exactly the summed
amounts of the expenses with a truthy timestamp whose first 10 characters are
`d`, a positive numeric amount, and type `Need`/`Want`; it emits one entry per
occurring bucket (no duplicates) and the output is sorted ascending by the
parsed date of the bucket key, regardless of input order.  The hypothesis
restricts the claim to inputs whose bucket keys are valid `YYYY-MM-DD` dates —
on an invalid key JS `new Date` yields NaN and the sort comparator is
unspecified, which the claim (phrased for valid timestamps) does not cover. -/
theorem claim_C6_trend (exps : List Expense)
    (hvalid : ∀ e ∈ exps, trendEligible e = true →
      (jsParseYmd (dayKey e.timestamp)).isSome = true) :
    (∀ p ∈ spendingTrendData exps, p.2 = trendTotal p.1 exps) ∧
    (∀ d : String, d ∈ (spendingTrendData exps).map (fun p => p.1) ↔
      ∃ e ∈ exps, trendEligible e = true ∧ dayKey e.timestamp = d) ∧
    ((spendingTrendData exps).map (fun p => p.1)).Nodup ∧
    (spendingTrendData exps).Pairwise trendLe := by
  by_cases hemp : exps.isEmpty
  · have hx : exps = [] := List.isEmpty_iff.mp hemp
    subst hx
    refine ⟨by simp [spendingTrendData], ?_, by simp [spendingTrendData],
      by simp [spendingTrendData]⟩
    intro d
    simp [spendingTrendData]
  · have hdef : spendingTrendData exps = (trendFold exps []).insertionSort trendLe := by
      unfold spendingTrendData
      rw [if_neg hemp]
    have hperm : List.Perm ((trendFold exps []).insertionSort trendLe) (trendFold exps []) :=
      List.perm_insertionSort trendLe _
    have hnd : ((trendFold exps []).map (fun p => p.1)).Nodup :=
      trendFold_keys_nodup exps [] (by simp)
    refine ⟨?_, ?_, ?_, ?_⟩
    · intro p hp
      rw [hdef] at hp
      have hp2 : p ∈ trendFold exps [] := (List.mem_insertionSort trendLe).mp hp
      have hlk := trendLookup_mem_of_nodup _ p hnd hp2
      have hv := trendFold_lookup exps [] p.1
      rw [hlk] at hv
      simpa [trendLookup] using hv
    · intro d
      rw [hdef]
      have hmk : d ∈ ((trendFold exps []).insertionSort trendLe).map (fun p => p.1) ↔
          d ∈ (trendFold exps []).map (fun p => p.1) := (hperm.map _).mem_iff
      rw [hmk, trendFold_keys]
      simp
    · rw [hdef]
      exact ((hperm.map (fun p => p.1)).nodup_iff).mpr hnd
    · rw [hdef]
      exact List.sorted_insertionSort trendLe _

/-- Witness for C6 at the spec's example: Need 10 on 2024-01-02 listed before
Want 5 on 2024-01-01 comes out date-ascending. -/
theorem claim_C6_trend_witness :
    ((∀ p ∈ spendingTrendData [exTrendB, exTrendA], p.2 = trendTotal p.1 [exTrendB, exTrendA]) ∧
     (∀ d : String, d ∈ (spendingTrendData [exTrendB, exTrendA]).map (fun p => p.1) ↔
        ∃ e ∈ [exTrendB, exTrendA], trendEligible e = true ∧ dayKey e.timestamp = d) ∧
     ((spendingTrendData [exTrendB, exTrendA]).map (fun p => p.1)).Nodup ∧
     (spendingTrendData [exTrendB, exTrendA]).Pairwise trendLe) ∧
    spendingTrendData [exTrendB, exTrendA] = [("2024-01-01", 5), ("2024-01-02", 10)] := by
  refine ⟨claim_C6_trend _ ?_, by decide⟩
  intro e he helig
  rcases List.mem_cons.mp he with rfl | he2
  · decide
  · rcases List.mem_cons.mp he2 with rfl | he3
    · decide
    · cases he3

end ExpenseTracker
